import Mathlib

/-!
Verification of the trkd-bootstrap intraday trading runtime.

Shallow embedding of the core modules:
- `src/data/ticks.py` (tick to 1-minute candle builder, minute-close detection)
- `src/data/candles.py` (5-minute aggregation)
- `src/indicators/vwap.py`, `src/data/backfill.py` (VWAP incremental / batch)
- `src/indicators/opening_range.py` (Opening Range)
- `src/risk/exits.py` (exit rules)
- `src/execution/paper.py`, `src/execution/live.py` (entry engines)
- `src/execution/position_sync.py` (broker reconciliation)
- `src/execution/router.py` (signal routing)

Conventions of the embedding:
- Prices, volumes and quantities are rationals (Python ints/floats).
- Timestamps: tick exchange timestamps are naturals counted in seconds;
  candle window starts are naturals counted in minutes (truncation
  `replace(second=0, microsecond=0)` becomes division by 60); time-of-day
  of a minute timestamp `t` is `t % 1440`.
- Python dicts keyed by a token or a pair become functions into `Option`,
  except position books that the code iterates over, which become
  association lists.
- A Python dict field that may be absent (or `None`) becomes an `Option`
  field; a key present with value `None` is conflated with an absent key.
- Broker calls (`kite.positions()`, `kite.place_order`) are passed in as
  explicit outcome parameters (`Option` = success/exception).
- Logging and best-effort DB writes are side effects with no influence on
  control flow or state in the source; they are not modeled.
-/

/-- OHLCV candle, `src/data/candles.py` dict shape
`{start, open, high, low, close, volume}`; `open_` renders the Python key
`open` (a Lean keyword). `start` is in minutes. -/
structure Candle where
  start : ℕ
  open_ : ℚ
  high : ℚ
  low : ℚ
  close : ℚ
  volume : ℚ
deriving DecidableEq, Repr

/-- A market tick as delivered by the feed, `src/data/ticks.py`.
Fields the code reads with `.get` / membership tests are `Option`s. -/
structure Tick where
  instrument_token : ℕ
  exchange_timestamp : Option ℕ
  last_price : Option ℚ
  volume_traded : Option ℚ
deriving DecidableEq, Repr

/-- Mutable state of the tick-ingestion layer of `src/data/ticks.py`:
`last_cum_volume` (module global), `candles_1m` and `last_minute_seen`
(passed-in dicts). -/
structure TickState where
  last_cum_volume : ℕ → Option ℚ
  candles_1m : ℕ × ℕ → Option Candle
  last_minute_seen : ℕ → Option ℕ

/-- The empty ingestion state (fresh dicts). -/
def emptyTickState : TickState :=
  ⟨fun _ => none, fun _ => none, fun _ => none⟩

/-- `_detect_minute_close` of `src/data/ticks.py` (lines 120-131): fires the
`on_minute_close` callback for the previously seen minute when a strictly
later minute arrives, then moves the per-token pointer to the current
minute (unconditionally, even backwards). The callback invocations are
returned as a list of `(token, closed_minute)` events. -/
def detect_minute_close (token : ℕ) (current_minute : ℕ)
    (last_minute_seen : ℕ → Option ℕ) : (ℕ → Option ℕ) × List (ℕ × ℕ) :=
  let evs : List (ℕ × ℕ) :=
    match last_minute_seen token with
    | some last => if last < current_minute then [(token, last)] else []
    | none => []
  (fun k => if k = token then some current_minute else last_minute_seen k, evs)

/-- The candle create-or-update step of `process_tick_to_1m`
(`src/data/ticks.py` lines 96-110): on a fresh window the candle opens at
the tick price with the delta as volume; otherwise high/low extend, close
becomes the tick price and the delta is added to the volume. -/
def apply_tick_candle (old : Option Candle) (ts : ℕ) (price delta_vol : ℚ) :
    Candle :=
  match old with
  | none => ⟨ts, price, price, price, price, delta_vol⟩
  | some c => ⟨c.start, c.open_, max c.high price, min c.low price,
               price, c.volume + delta_vol⟩

/-- The per-tick volume delta of `src/data/ticks.py` lines 88-92:
`max(cum - prev, 0)` against the previously seen cumulative value,
`0` on the first observation for the token. -/
def tick_delta (prev : Option ℚ) (cum_vol : ℚ) : ℚ :=
  match prev with
  | none => 0
  | some prev_cum => max (cum_vol - prev_cum) 0

/-- `process_tick_to_1m` of `src/data/ticks.py` (lines 63-117): skips ticks
missing timestamp, price or cumulative volume; converts the cumulative
session volume to a per-tick delta; creates or updates the
`(token, minute)` candle; then runs minute-close detection. Returns the
new state and the close events. -/
def process_tick_to_1m (s : TickState) (tick : Tick) :
    TickState × List (ℕ × ℕ) :=
  match tick.exchange_timestamp, tick.last_price with
  | some tsec, some price =>
    let token := tick.instrument_token
    let ts := tsec / 60
    match tick.volume_traded with
    | none => (s, [])
    | some cum_vol =>
      let delta_vol := tick_delta (s.last_cum_volume token) cum_vol
      let lcv : ℕ → Option ℚ :=
        fun k => if k = token then some cum_vol else s.last_cum_volume k
      let key : ℕ × ℕ := (token, ts)
      let c1 : ℕ × ℕ → Option Candle :=
        fun k => if k = key then
          some (apply_tick_candle (s.candles_1m key) ts price delta_vol)
          else s.candles_1m k
      let r := detect_minute_close token ts s.last_minute_seen
      (⟨lcv, c1, r.1⟩, r.2)
  | _, _ => (s, [])

/-- Feed a whole tick sequence through `process_tick_to_1m`, collecting all
minute-close events in order. -/
def process_ticks (s : TickState) : List Tick → TickState × List (ℕ × ℕ)
  | [] => (s, [])
  | t :: ts =>
    let r := process_tick_to_1m s t
    let rest := process_ticks r.1 ts
    (rest.1, r.2 ++ rest.2)

/-- The per-tick volume deltas the builder attributes to candle windows:
for each tick that carries timestamp, price and cumulative volume, the
pair of its `(token, minute)` window key and the delta
`max(cum - prev, 0)` (0 on the first observation for the token), threading
the `last_cum_volume` map exactly as `process_tick_to_1m` does. -/
def tick_deltas (lcv : ℕ → Option ℚ) : List Tick → List ((ℕ × ℕ) × ℚ)
  | [] => []
  | t :: ts =>
    match t.exchange_timestamp, t.last_price with
    | some tsec, some _ =>
      match t.volume_traded with
      | none => tick_deltas lcv ts
      | some cum_vol =>
        let token := t.instrument_token
        ((token, tsec / 60), tick_delta (lcv token) cum_vol) ::
          tick_deltas (fun k => if k = token then some cum_vol else lcv k) ts
    | _, _ => tick_deltas lcv ts

/-- The deltas of `ds` attributed to window `key`. -/
def deltasFor (ds : List ((ℕ × ℕ) × ℚ)) (key : ℕ × ℕ) : List ℚ :=
  ds.filterMap (fun p => if p.1 = key then some p.2 else none)

/-- Volume recorded in the builder state for window `key`
(`none` when no candle exists). -/
def volOpt (s : TickState) (key : ℕ × ℕ) : Option ℚ :=
  (s.candles_1m key).map Candle.volume

theorem apply_tick_candle_volume (old : Option Candle) (ts : ℕ)
    (price delta_vol : ℚ) :
    (apply_tick_candle old ts price delta_vol).volume
      = (old.map Candle.volume).getD 0 + delta_vol := by
  cases old <;> simp [apply_tick_candle]

theorem process_ticks_volume (ts : List Tick) :
    ∀ (s : TickState) (key : ℕ × ℕ),
      ((volOpt (process_ticks s ts).1 key).getD 0
          = (volOpt s key).getD 0
              + (deltasFor (tick_deltas s.last_cum_volume ts) key).sum)
      ∧ ((volOpt (process_ticks s ts).1 key).isSome
          = ((volOpt s key).isSome
              || !(deltasFor (tick_deltas s.last_cum_volume ts) key).isEmpty)) := by
  induction ts with
  | nil =>
    intro s key
    simp [process_ticks, tick_deltas, deltasFor]
  | cons t ts ih =>
    intro s key
    rcases hts : t.exchange_timestamp with _ | tsec
    · simp only [process_ticks, process_tick_to_1m, tick_deltas, hts]
      exact ih s key
    rcases hp : t.last_price with _ | price
    · simp only [process_ticks, process_tick_to_1m, tick_deltas, hts, hp]
      exact ih s key
    rcases hv : t.volume_traded with _ | cum
    · simp only [process_ticks, process_tick_to_1m, tick_deltas, hts, hp, hv]
      exact ih s key
    · simp only [process_ticks, process_tick_to_1m, tick_deltas, hts, hp, hv]
      obtain ⟨stepv, steps⟩ := ih ⟨fun k => if k = t.instrument_token then some cum
          else s.last_cum_volume k,
        fun k => if k = (t.instrument_token, tsec / 60) then
          some (apply_tick_candle (s.candles_1m (t.instrument_token, tsec / 60))
            (tsec / 60) price
            (tick_delta (s.last_cum_volume t.instrument_token) cum))
          else s.candles_1m k,
        (detect_minute_close t.instrument_token (tsec / 60)
          s.last_minute_seen).1⟩ key
      constructor
      · rw [stepv]
        by_cases hkey : (t.instrument_token, tsec / 60) = key
        · subst hkey
          simp [volOpt, deltasFor, apply_tick_candle_volume, add_assoc]
        · simp only [volOpt, deltasFor, List.filterMap_cons, if_neg hkey,
            if_neg (Ne.symm hkey)]
      · rw [steps]
        by_cases hkey : (t.instrument_token, tsec / 60) = key
        · subst hkey
          simp [volOpt, deltasFor]
        · simp only [volOpt, deltasFor, List.filterMap_cons, if_neg hkey,
            if_neg (Ne.symm hkey)]

theorem tick_delta_nonneg (prev : Option ℚ) (cum : ℚ) :
    0 ≤ tick_delta prev cum := by
  cases prev with
  | none => simp [tick_delta]
  | some p => exact le_max_right (cum - p) 0

theorem tick_deltas_nonneg (ts : List Tick) :
    ∀ (lcv : ℕ → Option ℚ), ∀ p ∈ tick_deltas lcv ts, 0 ≤ p.2 := by
  induction ts with
  | nil => intro lcv p hp; simp [tick_deltas] at hp
  | cons t ts ih =>
    intro lcv p hp
    rcases hts : t.exchange_timestamp with _ | tsec <;>
      rcases hpr : t.last_price with _ | price <;>
      rcases hv : t.volume_traded with _ | cum <;>
      simp only [tick_deltas, hts, hpr, hv, List.mem_cons] at hp
    all_goals
      first
        | exact ih _ p hp
        | (rcases hp with rfl | hp
           · exact tick_delta_nonneg _ _
           · exact ih _ p hp)

/-- The deltas of `ds` attributed to the instrument `token`
(across all of its windows, in order). -/
def tokenDeltas (ds : List ((ℕ × ℕ) × ℚ)) (token : ℕ) : List ℚ :=
  ds.filterMap (fun p => if p.1.1 = token then some p.2 else none)

theorem tick_deltas_first_zero (ts : List Tick) :
    ∀ (lcv : ℕ → Option ℚ) (token : ℕ), lcv token = none →
      ∀ q, (tokenDeltas (tick_deltas lcv ts) token).head? = some q → q = 0 := by
  induction ts with
  | nil => intro lcv token _ q hq; simp [tick_deltas, tokenDeltas] at hq
  | cons t ts ih =>
    intro lcv token h0 q hq
    rcases hts : t.exchange_timestamp with _ | tsec <;>
      rcases hp : t.last_price with _ | price <;>
      rcases hv : t.volume_traded with _ | cum <;>
      simp only [tick_deltas, hts, hp, hv] at hq
    · exact ih lcv token h0 q hq
    · exact ih lcv token h0 q hq
    · exact ih lcv token h0 q hq
    · exact ih lcv token h0 q hq
    · exact ih lcv token h0 q hq
    · exact ih lcv token h0 q hq
    · exact ih lcv token h0 q hq
    · by_cases htok : t.instrument_token = token
      · subst htok
        simp only [tokenDeltas, List.filterMap_cons, if_pos rfl, ite_true,
          List.head?_cons, Option.some_inj] at hq
        rw [← hq, h0]
        rfl
      · simp only [tokenDeltas, List.filterMap_cons, if_neg htok] at hq
        have h0' : (fun k => if k = t.instrument_token then some cum else lcv k)
            token = none := by
          show (if token = t.instrument_token then some cum else lcv token) = none
          rw [if_neg (fun h => htok h.symm)]
          exact h0
        exact ih _ token h0' q hq

/-- C3: for every tick sequence with cumulative session volume, the volume
recorded in each 1-minute candle is exactly the sum of the per-tick deltas
attributed to that window (and `none` exactly when no valid tick hit the
window); each delta is `max(0, current - previous)`, hence nonnegative;
and for each instrument the first attributed delta is 0. -/
theorem volume_equals_sum_of_deltas_C3 (ts : List Tick) :
    (∀ key : ℕ × ℕ,
      volOpt (process_ticks emptyTickState ts).1 key
        = (if (deltasFor (tick_deltas emptyTickState.last_cum_volume ts) key).isEmpty
           then none
           else some (deltasFor (tick_deltas emptyTickState.last_cum_volume ts) key).sum))
    ∧ (∀ p ∈ tick_deltas emptyTickState.last_cum_volume ts, 0 ≤ p.2)
    ∧ (∀ (token : ℕ) (q : ℚ),
        (tokenDeltas (tick_deltas emptyTickState.last_cum_volume ts) token).head?
          = some q → q = 0) := by
  refine ⟨?_, tick_deltas_nonneg ts _,
    fun token => tick_deltas_first_zero ts emptyTickState.last_cum_volume token rfl⟩
  intro key
  obtain ⟨hval, hsome⟩ := process_ticks_volume ts emptyTickState key
  have hemp : volOpt emptyTickState key = none := rfl
  rw [hemp] at hval hsome
  simp only [Option.getD_none, Option.isSome_none, Bool.false_or, zero_add]
    at hval hsome
  rcases hres : volOpt (process_ticks emptyTickState ts).1 key with _ | v
  · rw [hres] at hsome
    simp only [Option.isSome_none] at hsome
    rw [if_pos (by simpa using hsome.symm)]
  · rw [hres] at hval hsome
    simp only [Option.isSome_some] at hsome
    rw [if_neg]
    · simp only [Option.getD_some] at hval
      rw [hval]
    · intro hcon
      rw [hcon] at hsome
      simp at hsome

/-- Two-tick instance used to exercise the C3 theorem. -/
def tsC3 : List Tick :=
  [⟨1, some 60, some 100, some 10⟩, ⟨1, some 80, some 101, some 25⟩]

theorem volume_equals_sum_of_deltas_C3_witness :
    (volOpt (process_ticks emptyTickState tsC3).1 (1, 1)
      = (if (deltasFor (tick_deltas emptyTickState.last_cum_volume tsC3)
              (1, 1)).isEmpty
         then none
         else some (deltasFor (tick_deltas emptyTickState.last_cum_volume tsC3)
              (1, 1)).sum))
    ∧ (0 : ℚ) = 0 :=
  ⟨(volume_equals_sum_of_deltas_C3 tsC3).1 (1, 1),
   (volume_equals_sum_of_deltas_C3 tsC3).2.2 1 0 rfl⟩

/-- C2 failing input: ticks for instrument 1 at minutes 1, 2, 1, 2. The
out-of-order third tick regresses the `last_minute_seen` pointer, so the
close of window (1, 1) is reported twice, and the third tick still mutates
the candle of window (1, 1) after that window's close was already
reported (its close moves from 100 to 102). -/
theorem minute_close_not_exactly_once_C2 :
    (process_ticks emptyTickState
        [⟨1, some 60, some 100, some 10⟩, ⟨1, some 121, some 101, some 20⟩,
         ⟨1, some 61, some 102, some 30⟩, ⟨1, some 125, some 103, some 40⟩]).2
      = [(1, 1), (1, 1)]
    ∧ ((process_ticks emptyTickState
        [⟨1, some 60, some 100, some 10⟩,
         ⟨1, some 121, some 101, some 20⟩]).1.candles_1m (1, 1)).map Candle.close
      = some 100
    ∧ ((process_ticks emptyTickState
        [⟨1, some 60, some 100, some 10⟩, ⟨1, some 121, some 101, some 20⟩,
         ⟨1, some 61, some 102, some 30⟩]).1.candles_1m (1, 1)).map Candle.close
      = some 102 :=
  ⟨rfl, rfl, rfl⟩

/-- Hour-of-day of a minute-granularity timestamp (`datetime.hour`). -/
def hourOfDay (t : ℕ) : ℕ := t % 1440 / 60

/-- The two candle maps of `src/data/candles.py` (module-level dicts
`candles_1m` and `candles_5m`). -/
structure DataState where
  candles_1m : ℕ × ℕ → Option Candle
  candles_5m : ℕ × ℕ → Option Candle

/-- The 5-minute candle built by `aggregate_5m` (`src/data/candles.py`
lines 123-130): open of the first part, max high, min low, close of the
last part, sum of volumes. -/
def build_5m_candle (five_start : ℕ) (p0 p1 p2 p3 p4 : Candle) : Candle :=
  ⟨five_start, p0.open_,
   max (max (max (max p0.high p1.high) p2.high) p3.high) p4.high,
   min (min (min (min p0.low p1.low) p2.low) p3.low) p4.low,
   p4.close,
   p0.volume + p1.volume + p2.volume + p3.volume + p4.volume⟩

/-- `aggregate_5m` of `src/data/candles.py` (lines 100-141): floor the
closed minute to its 5-minute bucket; return nothing if the bucket already
holds a 5-minute candle; return nothing while any of the 5 constituent
1-minute candles is absent; otherwise build the candle, run the
`start.hour >= 9` IST assertion (`Except.error` = AssertionError), store
it and return it. -/
def aggregate_5m (st : DataState) (token closed_minute : ℕ) :
    Except String (DataState × Option Candle) :=
  let five_start := closed_minute / 5 * 5
  let key : ℕ × ℕ := (token, five_start)
  match st.candles_5m key with
  | some _ => .ok (st, none)
  | none =>
    match st.candles_1m (token, five_start),
          st.candles_1m (token, five_start + 1),
          st.candles_1m (token, five_start + 2),
          st.candles_1m (token, five_start + 3),
          st.candles_1m (token, five_start + 4) with
    | some p0, some p1, some p2, some p3, some p4 =>
      let candle := build_5m_candle five_start p0 p1 p2 p3 p4
      if 9 ≤ hourOfDay five_start then
        .ok (⟨st.candles_1m,
              fun k => if k = key then some candle else st.candles_5m k⟩,
             some candle)
      else .error "Non-IST candle detected"
    | _, _, _, _, _ => .ok (st, none)

/-- C4: per (instrument, 5-minute bucket) the aggregation emits at most
once: nothing while the bucket already holds a finished candle, nothing
while a constituent 1-minute candle is missing; with all 5 parts present
(and the bucket inside the IST session) it builds open = first part's
open, high = max of highs, low = min of lows, close = last part's close,
volume = sum of volumes, stores it, and every further close signal for the
bucket's minutes returns nothing with the state unchanged. -/
theorem aggregate_5m_exactly_once_C4 (st : DataState) (token m : ℕ) :
    (∀ c, st.candles_5m (token, m / 5 * 5) = some c →
        aggregate_5m st token m = Except.ok (st, none))
    ∧ (st.candles_5m (token, m / 5 * 5) = none →
        (∃ i, i < 5 ∧ st.candles_1m (token, m / 5 * 5 + i) = none) →
        aggregate_5m st token m = Except.ok (st, none))
    ∧ (∀ p0 p1 p2 p3 p4 : Candle,
        st.candles_5m (token, m / 5 * 5) = none →
        st.candles_1m (token, m / 5 * 5) = some p0 →
        st.candles_1m (token, m / 5 * 5 + 1) = some p1 →
        st.candles_1m (token, m / 5 * 5 + 2) = some p2 →
        st.candles_1m (token, m / 5 * 5 + 3) = some p3 →
        st.candles_1m (token, m / 5 * 5 + 4) = some p4 →
        9 ≤ hourOfDay (m / 5 * 5) →
        ∃ st' : DataState,
          aggregate_5m st token m
            = Except.ok (st', some (build_5m_candle (m / 5 * 5) p0 p1 p2 p3 p4))
          ∧ st'.candles_1m = st.candles_1m
          ∧ st'.candles_5m (token, m / 5 * 5)
              = some (build_5m_candle (m / 5 * 5) p0 p1 p2 p3 p4)
          ∧ (∀ k, k ≠ (token, m / 5 * 5) → st'.candles_5m k = st.candles_5m k)
          ∧ (build_5m_candle (m / 5 * 5) p0 p1 p2 p3 p4).open_ = p0.open_
          ∧ (build_5m_candle (m / 5 * 5) p0 p1 p2 p3 p4).close = p4.close
          ∧ (build_5m_candle (m / 5 * 5) p0 p1 p2 p3 p4).volume
              = p0.volume + p1.volume + p2.volume + p3.volume + p4.volume
          ∧ (∀ m', m' / 5 * 5 = m / 5 * 5 →
              aggregate_5m st' token m' = Except.ok (st', none))) := by
  refine ⟨?_, ?_, ?_⟩
  · intro c hc
    simp [aggregate_5m, hc]
  · intro h5 hmiss
    obtain ⟨i, hi5, hnone⟩ := hmiss
    rcases h0 : st.candles_1m (token, m / 5 * 5) with _ | p0
    · simp [aggregate_5m, h5, h0]
    rcases h1 : st.candles_1m (token, m / 5 * 5 + 1) with _ | p1
    · simp [aggregate_5m, h5, h0, h1]
    rcases h2 : st.candles_1m (token, m / 5 * 5 + 2) with _ | p2
    · simp [aggregate_5m, h5, h0, h1, h2]
    rcases h3 : st.candles_1m (token, m / 5 * 5 + 3) with _ | p3
    · simp [aggregate_5m, h5, h0, h1, h2, h3]
    rcases h4 : st.candles_1m (token, m / 5 * 5 + 4) with _ | p4
    · simp [aggregate_5m, h5, h0, h1, h2, h3, h4]
    exfalso
    interval_cases i <;> simp_all
  · intro p0 p1 p2 p3 p4 h5 h0 h1 h2 h3 h4 hhour
    refine ⟨⟨st.candles_1m,
      fun k => if k = (token, m / 5 * 5) then
        some (build_5m_candle (m / 5 * 5) p0 p1 p2 p3 p4)
        else st.candles_5m k⟩, ?_, rfl, ?_, ?_, rfl, rfl, rfl, ?_⟩
    · simp [aggregate_5m, h5, h0, h1, h2, h3, h4, hhour]
    · simp
    · intro k hk
      simp [if_neg hk]
    · intro m' hm'
      simp [aggregate_5m, hm']

/-- Five 1-minute candles of the 10:00 bucket for instrument 1. -/
def c0C4 : Candle := ⟨600, 100, 101, 99, 100, 10⟩

def c1C4 : Candle := ⟨601, 100, 102, 98, 101, 10⟩

def c2C4 : Candle := ⟨602, 101, 103, 99, 102, 10⟩

def c3C4 : Candle := ⟨603, 102, 104, 97, 103, 10⟩

def c4C4 : Candle := ⟨604, 103, 105, 100, 104, 10⟩

/-- Data state holding exactly the five parts of bucket 600. -/
def stC4 : DataState :=
  ⟨fun k =>
    if k = (1, 600) then some c0C4
    else if k = (1, 601) then some c1C4
    else if k = (1, 602) then some c2C4
    else if k = (1, 603) then some c3C4
    else if k = (1, 604) then some c4C4
    else none,
   fun _ => none⟩

theorem aggregate_5m_exactly_once_C4_witness :
    ∃ st' : DataState,
      aggregate_5m stC4 1 602
        = Except.ok (st', some (build_5m_candle 600 c0C4 c1C4 c2C4 c3C4 c4C4))
      ∧ st'.candles_1m = stC4.candles_1m
      ∧ st'.candles_5m (1, 600)
          = some (build_5m_candle 600 c0C4 c1C4 c2C4 c3C4 c4C4)
      ∧ (∀ k, k ≠ (1, 600) → st'.candles_5m k = stC4.candles_5m k)
      ∧ (build_5m_candle 600 c0C4 c1C4 c2C4 c3C4 c4C4).open_ = c0C4.open_
      ∧ (build_5m_candle 600 c0C4 c1C4 c2C4 c3C4 c4C4).close = c4C4.close
      ∧ (build_5m_candle 600 c0C4 c1C4 c2C4 c3C4 c4C4).volume
          = c0C4.volume + c1C4.volume + c2C4.volume + c3C4.volume + c4C4.volume
      ∧ (∀ m', m' / 5 * 5 = 600 →
          aggregate_5m st' 1 m' = Except.ok (st', none)) :=
  (aggregate_5m_exactly_once_C4 stC4 1 602).2.2 c0C4 c1C4 c2C4 c3C4 c4C4
    rfl rfl rfl rfl rfl rfl (by decide)

/-- Opening-Range state dict value of `src/indicators/opening_range.py`. -/
structure ORState where
  high : ℚ
  low : ℚ
  finalized : Bool
deriving DecidableEq, Repr

/-- Minute-of-day of a minute-granularity timestamp (`datetime.time()`). -/
def timeOfDay (t : ℕ) : ℕ := t % 1440

/-- 09:15 IST in minutes of day. -/
def OR_START : ℕ := 555

/-- 09:45 IST in minutes of day. -/
def OR_END : ℕ := 585

/-- 09:40 IST in minutes of day, the finalization threshold of
`src/indicators/opening_range.py` line 78. -/
def OR_FINAL : ℕ := 580

/-- `update_opening_range_from_candle` of `src/indicators/opening_range.py`
(lines 45-83): ignore candles whose start time is outside
`[OR_START, OR_END)`; `setdefault` an unfinalized state seeded with the
candle's high/low; if finalized do nothing; otherwise extend high/low and
finalize when the candle time reaches 09:40. -/
def update_opening_range_from_candle (token : ℕ) (candle : Candle)
    (opening_range : ℕ → Option ORState) : ℕ → Option ORState :=
  let candle_time := timeOfDay candle.start
  if candle_time < OR_START ∨ OR_END ≤ candle_time then opening_range
  else
    let state := (opening_range token).getD ⟨candle.high, candle.low, false⟩
    if state.finalized then opening_range
    else
      let st' : ORState :=
        ⟨max state.high candle.high, min state.low candle.low,
         decide (OR_FINAL ≤ candle_time)⟩
      fun k => if k = token then some st' else opening_range k

/-- `is_or_finalized` of `src/indicators/opening_range.py` (lines 89-96). -/
def is_or_finalized (token : ℕ) (opening_range : ℕ → Option ORState) : Bool :=
  match opening_range token with
  | some st => st.finalized
  | none => false

/-- `get_opening_range` of `src/indicators/opening_range.py`
(lines 99-106): `none` until finalized. -/
def get_opening_range (token : ℕ) (opening_range : ℕ → Option ORState) :
    Option ORState :=
  if is_or_finalized token opening_range then opening_range token else none

/-- C7: the Opening-Range accessor returns nothing whenever the state is
absent or unfinalized, and once finalized the stored high, low and
finalized flag are frozen: no update call (for any token and any candle)
changes the entry again. -/
theorem opening_range_frozen_C7 :
    (∀ (rng : ℕ → Option ORState) (token : ℕ),
        rng token = none → get_opening_range token rng = none)
    ∧ (∀ (rng : ℕ → Option ORState) (token : ℕ) (st : ORState),
        rng token = some st → st.finalized = false →
        get_opening_range token rng = none)
    ∧ (∀ (rng : ℕ → Option ORState) (token : ℕ) (st : ORState),
        rng token = some st → st.finalized = true →
        ∀ (tok' : ℕ) (c : Candle),
          update_opening_range_from_candle tok' c rng token = some st) := by
  refine ⟨?_, ?_, ?_⟩
  · intro rng token h
    simp [get_opening_range, is_or_finalized, h]
  · intro rng token st h hf
    simp [get_opening_range, is_or_finalized, h, hf]
  · intro rng token st h hf tok' c
    by_cases htok : tok' = token
    · subst htok
      simp only [update_opening_range_from_candle]
      split_ifs with hout hfin
      · exact h
      · exact h
      · exfalso
        rw [h] at hfin
        simp only [Option.getD_some] at hfin
        exact hfin (by rw [hf])
    · simp only [update_opening_range_from_candle]
      split_ifs with hout hfin
      · exact h
      · exact h
      · simp [show ¬token = tok' from fun hh => htok hh.symm, h]

theorem or_update_keeps_unfinalized (rng : ℕ → Option ORState)
    (token tok' : ℕ) (c : Candle)
    (h : is_or_finalized token rng = false)
    (hc : tok' = token →
      ¬(OR_FINAL ≤ timeOfDay c.start ∧ timeOfDay c.start < OR_END)) :
    is_or_finalized token (update_opening_range_from_candle tok' c rng)
      = false := by
  by_cases htok : tok' = token
  · subst htok
    simp only [update_opening_range_from_candle]
    split_ifs with hout hfin
    · exact h
    · exact h
    · simp only [is_or_finalized, if_pos rfl]
      rw [not_or] at hout
      have hlt : timeOfDay c.start < OR_END := by omega
      have : ¬ OR_FINAL ≤ timeOfDay c.start := fun hge => hc rfl ⟨hge, hlt⟩
      simp [this]
  · simp only [update_opening_range_from_candle]
    split_ifs with hout hfin
    · exact h
    · exact h
    · simp only [is_or_finalized] at h ⊢
      simp only [show ¬token = tok' from fun hh => htok hh.symm, ite_false,
        if_false]
      exact h

theorem or_fold_keeps_unfinalized (cs : List (ℕ × Candle)) :
    ∀ (rng : ℕ → Option ORState) (token : ℕ),
      is_or_finalized token rng = false →
      (∀ p ∈ cs, p.1 = token →
        ¬(OR_FINAL ≤ timeOfDay p.2.start ∧ timeOfDay p.2.start < OR_END)) →
      is_or_finalized token
        (cs.foldl (fun m p => update_opening_range_from_candle p.1 p.2 m) rng)
        = false := by
  induction cs with
  | nil => intro rng token h _; exact h
  | cons p cs ih =>
    intro rng token h hcs
    simp only [List.foldl_cons]
    exact ih _ token
      (or_update_keeps_unfinalized rng token p.1 p.2 h
        (fun he => hcs p (List.mem_cons_self p cs) he))
      (fun q hq => hcs q (List.mem_cons_of_mem p hq))

/-- C10: finalization is triggered only by an update whose candle start
falls in [09:40, 09:45); if no candle in that band is ever processed for
an instrument, the state stays unfinalized and the accessor keeps
returning nothing, no matter what other candles (before 09:40 or at and
after 09:45) arrive. -/
theorem opening_range_final_trigger_C10 :
    (∀ (rng : ℕ → Option ORState) (token : ℕ) (c : Candle),
        is_or_finalized token rng = false →
        is_or_finalized token (update_opening_range_from_candle token c rng)
          = true →
        OR_FINAL ≤ timeOfDay c.start ∧ timeOfDay c.start < OR_END)
    ∧ (∀ (cs : List (ℕ × Candle)) (rng : ℕ → Option ORState) (token : ℕ),
        is_or_finalized token rng = false →
        (∀ p ∈ cs, p.1 = token →
          ¬(OR_FINAL ≤ timeOfDay p.2.start ∧ timeOfDay p.2.start < OR_END)) →
        get_opening_range token
          (cs.foldl (fun m p => update_opening_range_from_candle p.1 p.2 m) rng)
          = none) := by
  constructor
  · intro rng token c h hfin
    by_contra hcon
    exact absurd hfin
      (by rw [or_update_keeps_unfinalized rng token token c h (fun _ => hcon)]
          simp)
  · intro cs rng token h hcs
    have := or_fold_keeps_unfinalized cs rng token h hcs
    simp [get_opening_range, this]

/-- A finalized Opening-Range book for instrument 1. -/
def rngFinC7 : ℕ → Option ORState :=
  fun k => if k = 1 then some ⟨110, 90, true⟩ else none

/-- An unfinalized Opening-Range book for instrument 1. -/
def rngUnfC7 : ℕ → Option ORState :=
  fun k => if k = 1 then some ⟨110, 90, false⟩ else none

theorem opening_range_frozen_C7_witness :
    get_opening_range 1 (fun _ => none) = none
    ∧ get_opening_range 1 rngUnfC7 = none
    ∧ update_opening_range_from_candle 1 ⟨582, 100, 120, 95, 118, 10⟩ rngFinC7 1
        = some ⟨110, 90, true⟩ :=
  ⟨opening_range_frozen_C7.1 (fun _ => none) 1 rfl,
   opening_range_frozen_C7.2.1 rngUnfC7 1 ⟨110, 90, false⟩ rfl rfl,
   opening_range_frozen_C7.2.2 rngFinC7 1 ⟨110, 90, true⟩ rfl rfl 1
     ⟨582, 100, 120, 95, 118, 10⟩⟩

theorem opening_range_final_trigger_C10_witness :
    (OR_FINAL ≤ timeOfDay 581 ∧ timeOfDay 581 < OR_END)
    ∧ get_opening_range 1
        ([((1 : ℕ), (⟨570, 100, 120, 95, 118, 10⟩ : Candle)),
          (1, ⟨590, 100, 125, 96, 119, 12⟩)].foldl
          (fun m p => update_opening_range_from_candle p.1 p.2 m)
          (fun _ => none)) = none :=
  ⟨opening_range_final_trigger_C10.1 (fun _ => none) 1
      ⟨581, 100, 120, 95, 118, 10⟩ rfl (by decide),
   opening_range_final_trigger_C10.2
      [((1 : ℕ), (⟨570, 100, 120, 95, 118, 10⟩ : Candle)),
       (1, ⟨590, 100, 125, 96, 119, 12⟩)] (fun _ => none) 1 rfl (by decide)⟩

/-- VWAP state dict value of `src/indicators/vwap.py` (`cum_pv`, `cum_vol`,
`vwap`; `vwap` is `None` until the first contributing candle). -/
structure VWAPState where
  cum_pv : ℚ
  cum_vol : ℚ
  vwap : Option ℚ
deriving DecidableEq, Repr

/-- Typical price `(high + low + close) / 3` used both by
`update_vwap_from_candle` (`src/indicators/vwap.py` lines 56-58) and by
`backfill_vwap` (`src/data/backfill.py` line 82). -/
def typical_price (c : Candle) : ℚ := (c.high + c.low + c.close) / 3

/-- `update_vwap_from_candle` of `src/indicators/vwap.py` (lines 36-76):
candles with volume <= 0 are skipped; otherwise typical-price x volume is
added to `cum_pv`, volume to `cum_vol`, and the derived vwap recomputed. -/
def update_vwap_from_candle (token : ℕ) (candle : Candle)
    (vwap_state : ℕ → Option VWAPState) : ℕ → Option VWAPState :=
  if candle.volume ≤ 0 then vwap_state
  else
    let pv := typical_price candle * candle.volume
    let state := (vwap_state token).getD ⟨0, 0, none⟩
    let st' : VWAPState :=
      ⟨state.cum_pv + pv, state.cum_vol + candle.volume,
       some ((state.cum_pv + pv) / (state.cum_vol + candle.volume))⟩
    fun k => if k = token then some st' else vwap_state k

/-- `backfill_vwap` of `src/data/backfill.py` (lines 40-103) with the
broker fetch made explicit: `market_started` models the
`now.time() < OR_START` early return and `candles` is the fetched batch.
No candles or zero total volume leave the state untouched; otherwise the
token's state is overwritten with the batch sums. -/
def backfill_vwap (token : ℕ) (market_started : Bool) (candles : List Candle)
    (vwap_state : ℕ → Option VWAPState) : ℕ → Option VWAPState :=
  if market_started = false then vwap_state
  else if candles.isEmpty then vwap_state
  else
    let cum_pv := candles.foldl (fun a c => a + typical_price c * c.volume) 0
    let cum_vol := candles.foldl (fun a c => a + c.volume) 0
    if cum_vol = 0 then vwap_state
    else fun k => if k = token then
        some ⟨cum_pv, cum_vol, some (cum_pv / cum_vol)⟩
      else vwap_state k

/-- Per-token action of one VWAP update. -/
def vwap_step (o : Option VWAPState) (c : Candle) : Option VWAPState :=
  if c.volume ≤ 0 then o
  else
    let pv := typical_price c * c.volume
    let st := o.getD ⟨0, 0, none⟩
    some ⟨st.cum_pv + pv, st.cum_vol + c.volume,
          some ((st.cum_pv + pv) / (st.cum_vol + c.volume))⟩

/-- Sum of typical-price x volume over a batch. -/
def sumPV (cs : List Candle) : ℚ :=
  (cs.map (fun c => typical_price c * c.volume)).sum

/-- Sum of volumes over a batch. -/
def sumVol (cs : List Candle) : ℚ := (cs.map Candle.volume).sum

theorem update_vwap_apply (token : ℕ) (c : Candle)
    (m : ℕ → Option VWAPState) (k : ℕ) :
    update_vwap_from_candle token c m k
      = if k = token then vwap_step (m token) c else m k := by
  by_cases hv : c.volume ≤ 0
  · simp only [update_vwap_from_candle, vwap_step, if_pos hv]
    by_cases hk : k = token
    · rw [if_pos hk, hk]
    · rw [if_neg hk]
  · simp only [update_vwap_from_candle, vwap_step, if_neg hv]

theorem fold_update_vwap_apply (cs : List Candle) :
    ∀ (m : ℕ → Option VWAPState) (token k : ℕ),
      (cs.foldl (fun mm c => update_vwap_from_candle token c mm) m) k
        = if k = token then cs.foldl vwap_step (m token) else m k := by
  induction cs with
  | nil => intro m token k; by_cases hk : k = token <;> simp [hk]
  | cons c cs ih =>
    intro m token k
    simp only [List.foldl_cons]
    rw [ih]
    by_cases hk : k = token
    · subst hk
      rw [if_pos rfl, if_pos rfl, update_vwap_apply, if_pos rfl]
    · rw [if_neg hk, if_neg hk, update_vwap_apply, if_neg hk]

theorem foldl_add_map (f : Candle → ℚ) (cs : List Candle) :
    ∀ x : ℚ, cs.foldl (fun a c => a + f c) x = x + (cs.map f).sum := by
  induction cs with
  | nil => intro x; simp
  | cons c cs ih =>
    intro x
    simp only [List.foldl_cons, List.map_cons, List.sum_cons]
    rw [ih]
    ring

theorem fold_vwap_step_pos (cs : List Candle) :
    ∀ pv v : ℚ, 0 < v → (∀ c ∈ cs, 0 ≤ c.volume) →
      cs.foldl vwap_step (some ⟨pv, v, some (pv / v)⟩)
        = some ⟨pv + sumPV cs, v + sumVol cs,
                some ((pv + sumPV cs) / (v + sumVol cs))⟩ := by
  induction cs with
  | nil => intro pv v _ _; simp [sumPV, sumVol]
  | cons c cs ih =>
    intro pv v hv h
    have htail : ∀ x ∈ cs, 0 ≤ x.volume :=
      fun x hx => h x (List.mem_cons_of_mem c hx)
    by_cases hc : c.volume ≤ 0
    · have hc0 : c.volume = 0 :=
        le_antisymm hc (h c (List.mem_cons_self c cs))
      simp only [List.foldl_cons, vwap_step, if_pos hc]
      rw [ih pv v hv htail]
      simp [sumPV, sumVol, hc0]
    · push_neg at hc
      simp only [List.foldl_cons, vwap_step, if_neg (not_le.mpr hc)]
      simp only [Option.getD_some]
      rw [ih (pv + typical_price c * c.volume) (v + c.volume)
        (by linarith) htail]
      simp only [sumPV, sumVol, List.map_cons, List.sum_cons]
      simp [add_assoc]

theorem sumVol_nonneg (cs : List Candle) (h : ∀ c ∈ cs, 0 ≤ c.volume) :
    0 ≤ sumVol cs := by
  refine List.sum_nonneg ?_
  intro x hx
  obtain ⟨c, hc, rfl⟩ := List.mem_map.mp hx
  exact h c hc

theorem fold_vwap_step_none (cs : List Candle)
    (h : ∀ c ∈ cs, 0 ≤ c.volume) :
    cs.foldl vwap_step none
      = if sumVol cs = 0 then none
        else some ⟨sumPV cs, sumVol cs, some (sumPV cs / sumVol cs)⟩ := by
  induction cs with
  | nil => simp [sumVol, sumPV]
  | cons c cs ih =>
    have htail : ∀ x ∈ cs, 0 ≤ x.volume :=
      fun x hx => h x (List.mem_cons_of_mem c hx)
    by_cases hc : c.volume ≤ 0
    · have hc0 : c.volume = 0 :=
        le_antisymm hc (h c (List.mem_cons_self c cs))
      simp only [List.foldl_cons, vwap_step, if_pos hc]
      rw [ih htail]
      simp [sumPV, sumVol, hc0]
    · push_neg at hc
      simp only [List.foldl_cons, vwap_step, if_neg (not_le.mpr hc),
        Option.getD_none]
      have hz : (0 : ℚ) + typical_price c * c.volume
          = typical_price c * c.volume := zero_add _
      rw [show (⟨0 + typical_price c * c.volume, 0 + c.volume,
          some ((0 + typical_price c * c.volume) / (0 + c.volume))⟩ : VWAPState)
        = ⟨typical_price c * c.volume, c.volume,
          some ((typical_price c * c.volume) / c.volume)⟩ by
        simp]
      rw [fold_vwap_step_pos cs (typical_price c * c.volume) c.volume hc htail]
      have hpos : 0 < sumVol (c :: cs) := by
        have := sumVol_nonneg cs htail
        simp only [sumVol, List.map_cons, List.sum_cons]
        simp only [sumVol] at this
        linarith
      rw [if_neg (by linarith)]
      simp [sumPV, sumVol]

theorem backfill_vwap_run (token : ℕ) (cs : List Candle)
    (vs : ℕ → Option VWAPState) (hne : cs.isEmpty = false) :
    backfill_vwap token true cs vs
      = (if sumVol cs = 0 then vs
         else fun k => if k = token then
             some ⟨sumPV cs, sumVol cs, some (sumPV cs / sumVol cs)⟩
           else vs k) := by
  simp only [backfill_vwap]
  rw [if_neg (by decide : ¬(true = false))]
  rw [if_neg (by simp [hne] : ¬(cs.isEmpty = true))]
  simp only [foldl_add_map, zero_add]
  rfl

/-- C8: folding the incremental VWAP update over a candle batch from a
fresh state produces exactly the state the batch backfill computes over
the same candles (for batches with nonnegative volumes, the only kind the
builder produces), and repeating the backfill over any existing state
overwrites it with the same result. -/
theorem vwap_incremental_equals_backfill_C8 (token : ℕ) (cs : List Candle) :
    ((∀ c ∈ cs, 0 ≤ c.volume) →
      cs.foldl (fun m c => update_vwap_from_candle token c m) (fun _ => none)
        = backfill_vwap token true cs (fun _ => none))
    ∧ (∀ vs : ℕ → Option VWAPState,
        backfill_vwap token true cs (backfill_vwap token true cs vs)
          = backfill_vwap token true cs vs) := by
  rcases hcs : cs.isEmpty with _ | _
  case true =>
    have hnil : cs = [] := List.isEmpty_iff.mp hcs
    subst hnil
    constructor
    · intro _
      simp [backfill_vwap]
    · intro vs
      simp [backfill_vwap]
  case false =>
    constructor
    · intro h
      funext k
      rw [fold_update_vwap_apply cs (fun _ => none) token k,
        backfill_vwap_run token cs (fun _ => none) hcs]
      by_cases hz : sumVol cs = 0
      · rw [if_pos hz]
        by_cases hk : k = token
        · rw [if_pos hk, fold_vwap_step_none cs h, if_pos hz]
        · rw [if_neg hk]
      · rw [if_neg hz]
        by_cases hk : k = token
        · rw [if_pos hk, if_pos hk, fold_vwap_step_none cs h, if_neg hz]
        · rw [if_neg hk, if_neg hk]
    · intro vs
      rw [backfill_vwap_run token cs vs hcs]
      by_cases hz : sumVol cs = 0
      · rw [if_pos hz, backfill_vwap_run token cs vs hcs, if_pos hz]
      · rw [if_neg hz, backfill_vwap_run token cs _ hcs, if_neg hz]
        funext k
        by_cases hk : k = token
        · rw [if_pos hk, if_pos hk]
        · rw [if_neg hk, if_neg hk]

/-- Three-candle batch (with one zero-volume candle) for the C8 witness. -/
def csC8 : List Candle :=
  [⟨555, 100, 102, 98, 101, 10⟩, ⟨560, 101, 104, 100, 103, 0⟩,
   ⟨565, 103, 105, 101, 104, 20⟩]

theorem vwap_incremental_equals_backfill_C8_witness :
    (csC8.foldl (fun m c => update_vwap_from_candle 1 c m) (fun _ => none)
      = backfill_vwap 1 true csC8 (fun _ => none))
    ∧ backfill_vwap 1 true csC8 (backfill_vwap 1 true csC8 (fun _ => none))
        = backfill_vwap 1 true csC8 (fun _ => none) :=
  ⟨(vwap_incremental_equals_backfill_C8 1 csC8).1 (by decide),
   (vwap_incremental_equals_backfill_C8 1 csC8).2 (fun _ => none)⟩

/-- Trade direction strings "LONG" / "SHORT". -/
inductive Dir
  | LONG
  | SHORT
deriving DecidableEq, Repr

/-- The direction string carried in signals and positions. -/
def dirStr : Dir → String
  | .LONG => "LONG"
  | .SHORT => "SHORT"

/-- Exit reasons emitted by `evaluate_exits` (`src/risk/exits.py`). -/
inductive ExitReason
  | VWAP_RECROSS
  | TRAIL_SL
  | TIME_EXIT
deriving DecidableEq, Repr

/-- Position dict shape shared by the execution engines and the risk
engine (union of the fields the sources read/write; `openFlag` renders the
Python key `open`). Defaults only ease building concrete instances. -/
structure Position where
  strategy : String := ""
  index : Option String := none
  direction : Option Dir := none
  tradingsymbol : String := ""
  instrument_token : ℕ := 0
  strike : ℚ := 0
  expiry : ℕ := 0
  qty : ℚ := 0
  entry_price : ℚ := 0
  entry_time : Option ℕ := none
  entry_date : ℕ := 0
  best_price : Option ℚ := none
  openFlag : Bool := true
  kite_order_id : Option ℕ := none
  closed_externally : Bool := false
  exit_reason : Option String := none
deriving DecidableEq, Repr

/-- Execution-directive fields read by the risk engine
(`exec_cfg.get("trailing_sl_enabled")`, `exec_cfg.get("trailing_sl_points", 0)`). -/
structure ExecCfg where
  trailing_sl_enabled : Bool
  trailing_sl_points : ℚ
deriving DecidableEq, Repr

/-- 15:20 IST in minutes of day (`HARD_EXIT_TIME`, `src/risk/exits.py`
line 29). -/
def HARD_EXIT_TIME : ℕ := 920

/-- `_check_vwap_recross` of `src/risk/exits.py` (lines 124-144): no exit
when the VWAP is missing or zero (`if not vwap`); exit long when close
falls below VWAP, short when close rises above it. -/
def check_vwap_recross (candle : Candle) (dir : Dir) (vwap : Option ℚ) :
    Bool :=
  match vwap with
  | none => false
  | some v =>
    if v = 0 then false
    else match dir with
      | .LONG => decide (candle.close < v)
      | .SHORT => decide (v < candle.close)

/-- Store a new best-favorable-price water mark on a position
(`pos["best_price"] = ...`). -/
def set_best (pos : Position) (b : ℚ) : Position :=
  {pos with best_price := some b}

/-- `_check_trailing_sl` of `src/risk/exits.py` (lines 147-172): no-op for
a nonpositive threshold; otherwise advance the best-favorable-price
water mark (seeded from the entry price) with the candle close and fire
when best - close (long) resp. close - best (short) reaches the
threshold. The updated position is returned alongside the decision. -/
def check_trailing_sl (candle : Candle) (dir : Dir) (pos : Position)
    (trail_points : ℚ) : Position × Bool :=
  if trail_points ≤ 0 then (pos, false)
  else
    let best := pos.best_price.getD pos.entry_price
    match dir with
    | .LONG =>
      let nb := max best candle.close
      (set_best pos nb, decide (trail_points ≤ nb - candle.close))
    | .SHORT =>
      let nb := min best candle.close
      (set_best pos nb, decide (trail_points ≤ candle.close - nb))

/-- The trailing-stop stage of the rule chain: only runs when the
directive enables it (`exec_cfg.get("trailing_sl_enabled")`,
`src/risk/exits.py` line 93), with threshold
`exec_cfg.get("trailing_sl_points", 0)`; missing directive means
disabled. -/
def trail_step (candle : Candle) (dir : Dir) (exec_cfg : Option ExecCfg)
    (pos : Position) : Position × Bool :=
  if (exec_cfg.map ExecCfg.trailing_sl_enabled).getD false then
    check_trailing_sl candle dir pos
      ((exec_cfg.map ExecCfg.trailing_sl_points).getD 0)
  else (pos, false)

/-- The per-position body of `evaluate_exits` (`src/risk/exits.py`
lines 59-118): skip closed positions and positions missing index or
direction; then check rules in order (1) VWAP re-cross, (2) trailing stop
when enabled in the directive, (3) hard time exit at 15:20 — the first
match wins (`continue`), so at most one reason is produced. -/
def evaluate_exit_rules (candle : Candle) (vwap : Option ℚ)
    (exec_cfg : Option ExecCfg) (pos : Position) :
    Position × Option ExitReason :=
  if pos.openFlag = false then (pos, none)
  else match pos.index, pos.direction with
    | some _, some dir =>
      if check_vwap_recross candle dir vwap then (pos, some .VWAP_RECROSS)
      else
        let r := trail_step candle dir exec_cfg pos
        if r.2 then (r.1, some .TRAIL_SL)
        else if HARD_EXIT_TIME ≤ timeOfDay candle.start then
          (r.1, some .TIME_EXIT)
        else (r.1, none)
    | _, _ => (pos, none)

/-- `evaluate_exits` of `src/risk/exits.py` (lines 35-118), live_engine =
None path: walk all positions keyed by (strategy, instrument_token), look
up the directive under the upper-cased (strategy, index, direction) key,
run the rule chain, and collect the emitted exit decisions (the
`_exit_position` dispatches) in order. -/
def evaluate_exits (candle : Candle) (vwap_state : ℕ → Option ℚ)
    (execution_config : String × String × String → Option ExecCfg) :
    List ((String × ℕ) × Position) →
    List ((String × ℕ) × Position) × List ((String × ℕ) × ExitReason)
  | [] => ([], [])
  | kp :: rest =>
    let cfg : Option ExecCfg :=
      match kp.2.index, kp.2.direction with
      | some idx, some d =>
        execution_config (kp.1.1.toUpper, idx.toUpper, (dirStr d).toUpper)
      | _, _ => none
    let r := evaluate_exit_rules candle (vwap_state kp.1.2) cfg kp.2
    let rst := evaluate_exits candle vwap_state execution_config rest
    ((kp.1, r.1) :: rst.1,
     (match r.2 with
      | some rsn => [(kp.1, rsn)]
      | none => []) ++ rst.2)

theorem evaluate_exits_key_mem (candle : Candle) (vs : ℕ → Option ℚ)
    (ec : String × String × String → Option ExecCfg) :
    ∀ (ps : List ((String × ℕ) × Position)) (e : (String × ℕ) × ExitReason),
      e ∈ (evaluate_exits candle vs ec ps).2 → e.1 ∈ ps.map Prod.fst := by
  intro ps
  induction ps with
  | nil => intro e he; simp [evaluate_exits] at he
  | cons kp rest ih =>
    intro e he
    simp only [evaluate_exits, List.mem_append] at he
    rcases he with he | he
    · rcases hr : (evaluate_exit_rules candle (vs kp.1.2)
          (match kp.2.index, kp.2.direction with
           | some idx, some d =>
             ec (kp.1.1.toUpper, idx.toUpper, (dirStr d).toUpper)
           | _, _ => none) kp.2).2 with _ | rsn <;> rw [hr] at he
      · simp at he
      · simp only [List.mem_singleton] at he
        subst he
        simp
    · simp only [List.map_cons, List.mem_cons]
      exact Or.inr (ih e he)

theorem evaluate_exits_once_per_key (candle : Candle) (vs : ℕ → Option ℚ)
    (ec : String × String × String → Option ExecCfg) :
    ∀ (ps : List ((String × ℕ) × Position)) (key : String × ℕ),
      (ps.map Prod.fst).Nodup →
      ((evaluate_exits candle vs ec ps).2.filter
        (fun e => decide (e.1 = key))).length ≤ 1 := by
  intro ps
  induction ps with
  | nil => intro key _; simp [evaluate_exits]
  | cons kp rest ih =>
    intro key hnd
    simp only [List.map_cons, List.nodup_cons] at hnd
    obtain ⟨hni, hnd⟩ := hnd
    simp only [evaluate_exits, List.filter_append, List.length_append]
    by_cases hk : kp.1 = key
    · have hz : ((evaluate_exits candle vs ec rest).2.filter
          (fun e => decide (e.1 = key))).length = 0 := by
        rw [List.length_eq_zero, List.filter_eq_nil_iff]
        intro e he
        simp only [decide_eq_true_eq]
        intro hek
        exact hni (by
          have := evaluate_exits_key_mem candle vs ec rest e he
          rw [hek, ← hk] at this
          exact this)
      rw [hz]
      rcases hr : (evaluate_exit_rules candle (vs kp.1.2)
          (match kp.2.index, kp.2.direction with
           | some idx, some d =>
             ec (kp.1.1.toUpper, idx.toUpper, (dirStr d).toUpper)
           | _, _ => none) kp.2).2 with _ | rsn
      · simp
      · simp [List.filter, hk]
    · rcases hr : (evaluate_exit_rules candle (vs kp.1.2)
          (match kp.2.index, kp.2.direction with
           | some idx, some d =>
             ec (kp.1.1.toUpper, idx.toUpper, (dirStr d).toUpper)
           | _, _ => none) kp.2).2 with _ | rsn
      · simpa using ih key hnd
      · have : (([(kp.1, rsn)] : List ((String × ℕ) × ExitReason)).filter
            (fun e => decide (e.1 = key))).length = 0 := by
          simp [List.filter, hk]
        simp only [this, Nat.zero_add]
        exact ih key hnd

/-- C5: rules are checked in the order VWAP re-cross (long exits below
VWAP, short above), trailing stop (fires when the advanced water mark
minus close reaches the threshold, mirrored for short), hard 15:20 time
exit; the first match wins and the per-evaluation result is a single
optional reason, so a position exits at most once per evaluation (also
per key across the whole book when keys are unique); a long position with
water mark 120 and threshold 10 exits with reason trailing-stop exactly
on a candle whose close is at most 110. -/
theorem exit_rule_order_C5 :
    (∀ (candle : Candle) (v : ℚ) (cfg : Option ExecCfg) (pos : Position)
        (idx : String),
        pos.openFlag = true → pos.index = some idx →
        pos.direction = some Dir.LONG → v ≠ 0 → candle.close < v →
        evaluate_exit_rules candle (some v) cfg pos
          = (pos, some ExitReason.VWAP_RECROSS))
    ∧ (∀ (candle : Candle) (v : ℚ) (cfg : Option ExecCfg) (pos : Position)
        (idx : String),
        pos.openFlag = true → pos.index = some idx →
        pos.direction = some Dir.SHORT → v ≠ 0 → v < candle.close →
        evaluate_exit_rules candle (some v) cfg pos
          = (pos, some ExitReason.VWAP_RECROSS))
    ∧ (∀ (candle : Candle) (vwap : Option ℚ) (pts : ℚ) (pos : Position)
        (idx : String),
        pos.openFlag = true → pos.index = some idx →
        pos.direction = some Dir.LONG →
        check_vwap_recross candle Dir.LONG vwap = false →
        0 < pts →
        pts ≤ max (pos.best_price.getD pos.entry_price) candle.close
              - candle.close →
        evaluate_exit_rules candle vwap (some ⟨true, pts⟩) pos
          = (set_best pos
               (max (pos.best_price.getD pos.entry_price) candle.close),
             some ExitReason.TRAIL_SL))
    ∧ (∀ (candle : Candle) (vwap : Option ℚ) (cfg : Option ExecCfg)
        (pos : Position) (idx : String) (dir : Dir),
        pos.openFlag = true → pos.index = some idx →
        pos.direction = some dir →
        check_vwap_recross candle dir vwap = false →
        (trail_step candle dir cfg pos).2 = false →
        HARD_EXIT_TIME ≤ timeOfDay candle.start →
        evaluate_exit_rules candle vwap cfg pos
          = ((trail_step candle dir cfg pos).1, some ExitReason.TIME_EXIT))
    ∧ (∀ (candle : Candle) (vwap : Option ℚ) (cfg : Option ExecCfg)
        (pos : Position) (idx : String) (dir : Dir),
        pos.openFlag = true → pos.index = some idx →
        pos.direction = some dir →
        check_vwap_recross candle dir vwap = false →
        (trail_step candle dir cfg pos).2 = false →
        timeOfDay candle.start < HARD_EXIT_TIME →
        evaluate_exit_rules candle vwap cfg pos
          = ((trail_step candle dir cfg pos).1, none))
    ∧ (∀ (candle : Candle) (pos : Position) (idx : String),
        pos.openFlag = true → pos.index = some idx →
        pos.direction = some Dir.LONG → pos.best_price = some 120 →
        ((evaluate_exit_rules candle none (some ⟨true, 10⟩) pos).2
            = some ExitReason.TRAIL_SL
          ↔ candle.close ≤ 110))
    ∧ (∀ (ps : List ((String × ℕ) × Position)) (candle : Candle)
        (vs : ℕ → Option ℚ)
        (ec : String × String × String → Option ExecCfg) (key : String × ℕ),
        (ps.map Prod.fst).Nodup →
        ((evaluate_exits candle vs ec ps).2.filter
          (fun e => decide (e.1 = key))).length ≤ 1) := by
  refine ⟨?_, ?_, ?_, ?_, ?_, ?_,
    fun ps candle vs ec key h => evaluate_exits_once_per_key candle vs ec ps key h⟩
  · intro candle v cfg pos idx hopen hidx hdir hv0 hcl
    have hrc : check_vwap_recross candle Dir.LONG (some v) = true := by
      simp [check_vwap_recross, hv0, hcl]
    simp [evaluate_exit_rules, hopen, hidx, hdir, hrc]
  · intro candle v cfg pos idx hopen hidx hdir hv0 hcl
    have hrc : check_vwap_recross candle Dir.SHORT (some v) = true := by
      simp [check_vwap_recross, hv0, hcl]
    simp [evaluate_exit_rules, hopen, hidx, hdir, hrc]
  · intro candle vwap pts pos idx hopen hidx hdir hrc hpts hle
    have hts : trail_step candle Dir.LONG (some ⟨true, pts⟩) pos
        = (set_best pos
             (max (pos.best_price.getD pos.entry_price) candle.close),
           true) := by
      simp only [trail_step, Option.map_some', Option.getD_some, if_true,
        check_trailing_sl, if_neg (not_le.mpr hpts)]
      simp [hle]
    simp [evaluate_exit_rules, hopen, hidx, hdir, hrc, hts]
  · intro candle vwap cfg pos idx dir hopen hidx hdir hrc hts htime
    cases dir <;>
      simp [evaluate_exit_rules, hopen, hidx, hdir, hrc, hts, htime]
  · intro candle vwap cfg pos idx dir hopen hidx hdir hrc hts htime
    cases dir <;>
      simp [evaluate_exit_rules, hopen, hidx, hdir, hrc, hts,
        not_le.mpr htime]
  · intro candle pos idx hopen hidx hdir hbest
    have hrc : check_vwap_recross candle Dir.LONG none = false := rfl
    have hch : ((10 : ℚ) ≤ max 120 candle.close - candle.close)
        ↔ candle.close ≤ 110 := by
      constructor
      · intro h10
        rcases le_total candle.close 120 with hle | hge
        · rw [max_eq_left hle] at h10; linarith
        · rw [max_eq_right hge] at h10; linarith
      · intro h110
        rw [max_eq_left (by linarith : candle.close ≤ 120)]
        linarith
    have hts : trail_step candle Dir.LONG (some ⟨true, 10⟩) pos
        = (set_best pos (max 120 candle.close),
           decide ((10 : ℚ) ≤ max 120 candle.close - candle.close)) := by
      simp only [trail_step, Option.map_some', Option.getD_some, if_true,
        check_trailing_sl, hbest]
      rw [if_neg (by norm_num : ¬((10 : ℚ) ≤ 0))]
    by_cases hfire : candle.close ≤ 110
    · have : ((10 : ℚ) ≤ max 120 candle.close - candle.close) := hch.mpr hfire
      simp [evaluate_exit_rules, hopen, hidx, hdir, hrc, hts, this, hfire]
    · have hnot : ¬((10 : ℚ) ≤ max 120 candle.close - candle.close) :=
        fun hcon => hfire (hch.mp hcon)
      simp only [evaluate_exit_rules, hopen, hidx, hdir, hrc, hts]
      simp only [decide_eq_true_eq]
      rw [if_neg hnot]
      by_cases htime : HARD_EXIT_TIME ≤ timeOfDay candle.start
      · simp [htime, hfire]
      · simp [htime, hfire]

/-- A long position with water mark 120, for the C5 witness. -/
def posC5 : Position :=
  { strategy := "VWAP_ORB", index := some "NIFTY",
    direction := some Dir.LONG, instrument_token := 7,
    entry_price := 100, best_price := some 120, openFlag := true }

/-- Candle closing at 109 before the hard-exit cutoff. -/
def candleC5 : Candle := ⟨700, 109, 112, 108, 109, 10⟩

theorem exit_rule_order_C5_witness :
    ((evaluate_exit_rules candleC5 none (some ⟨true, 10⟩) posC5).2
        = some ExitReason.TRAIL_SL ↔ candleC5.close ≤ 110)
    ∧ ((evaluate_exits candleC5 (fun _ => none) (fun _ => none)
          [(("VWAP_ORB", 7), posC5)]).2.filter
        (fun e => decide (e.1 = ("VWAP_ORB", 7)))).length ≤ 1 :=
  ⟨exit_rule_order_C5.2.2.2.2.2.1 candleC5 posC5 "NIFTY" rfl rfl rfl rfl,
   exit_rule_order_C5.2.2.2.2.2.2 [(("VWAP_ORB", 7), posC5)] candleC5
     (fun _ => none) (fun _ => none) ("VWAP_ORB", 7) (by simp)⟩

/-- A broker-reported net position (`kite.positions()["net"]` entry,
fields the sync code reads). -/
structure BrokerPos where
  tradingsymbol : String
  quantity : ℤ
  instrument_token : ℕ
deriving DecidableEq, Repr

/-- An order sent to the broker (the arguments of `kite.place_order` the
model tracks). The reconcilers place none; the entry/exit engines do. -/
structure PlacedOrder where
  tradingsymbol : String
  transaction_type : String
  quantity : ℚ
deriving DecidableEq, Repr

/-- Trading symbols with nonzero quantity in the broker report (the
`kite_open` dict keys of `src/execution/position_sync.py` lines 22-26). -/
def kite_open_symbols (report : List BrokerPos) : List String :=
  (report.filter (fun p => decide (p.quantity ≠ 0))).map BrokerPos.tradingsymbol

/-- Instrument tokens with nonzero quantity in the broker report (the
`live_tokens` dict keys of `src/execution/live.py` lines 40-44). -/
def kite_open_tokens (report : List BrokerPos) : List ℕ :=
  (report.filter (fun p => decide (p.quantity ≠ 0))).map
    BrokerPos.instrument_token

/-- Mark a position force-closed by reconciliation,
`src/execution/position_sync.py` lines 35-36. -/
def mark_external_close (p : Position) : Position :=
  {p with openFlag := false, exit_reason := some "EXTERNAL_CLOSE"}

/-- Mark a position force-closed by the live engine's reconciliation,
`src/execution/live.py` lines 50-51. -/
def mark_closed_externally (p : Position) : Position :=
  {p with openFlag := false, closed_externally := true}

/-- `sync_positions_from_kite` of `src/execution/position_sync.py`
(lines 8-41): a failed broker fetch (`fetch = none`) returns with
positions untouched; otherwise every open position whose trading symbol
is absent from the nonzero broker report is marked closed with reason
EXTERNAL_CLOSE; no order is placed (second component). -/
def sync_positions_from_kite (fetch : Option (List BrokerPos))
    (positions : List ((String × ℕ) × Position)) :
    List ((String × ℕ) × Position) × List PlacedOrder :=
  match fetch with
  | none => (positions, [])
  | some report =>
    let kite_open := kite_open_symbols report
    (positions.map (fun kp =>
      if kp.2.openFlag ∧ kp.2.tradingsymbol ∉ kite_open then
        (kp.1, mark_external_close kp.2)
      else kp), [])

/-- `LiveEngine.sync_positions_from_kite` of `src/execution/live.py`
(lines 27-56): same shape, keyed by instrument token and marking
`closed_externally`. -/
def live_sync_positions_from_kite (fetch : Option (List BrokerPos))
    (positions : List ((String × ℕ) × Position)) :
    List ((String × ℕ) × Position) × List PlacedOrder :=
  match fetch with
  | none => (positions, [])
  | some report =>
    let live_tokens := kite_open_tokens report
    (positions.map (fun kp =>
      if kp.2.openFlag ∧ kp.2.instrument_token ∉ live_tokens then
        (kp.1, mark_closed_externally kp.2)
      else kp), [])

/-- C9: on a successful broker fetch every locally-open position missing
from (or zero-quantity in) the broker's nonzero net report is marked
closed with the distinct externally-closed marker, open positions the
broker still reports stay untouched, closed positions stay untouched, and
no counter-order is placed; on fetch failure everything is returned
unchanged. Proved for both reconcilers (`src/execution/position_sync.py`
and `LiveEngine.sync_positions_from_kite`). -/
theorem position_reconciliation_C9 :
    (∀ positions, sync_positions_from_kite none positions = (positions, []))
    ∧ (∀ positions,
        live_sync_positions_from_kite none positions = (positions, []))
    ∧ (∀ report positions,
        (sync_positions_from_kite (some report) positions).2 = []
        ∧ (live_sync_positions_from_kite (some report) positions).2 = [])
    ∧ (∀ (report : List BrokerPos)
        (positions : List ((String × ℕ) × Position)) (i : ℕ)
        (kp : (String × ℕ) × Position),
        positions[i]? = some kp →
        ((kp.2.openFlag = true →
          kp.2.tradingsymbol ∉ kite_open_symbols report →
          ((sync_positions_from_kite (some report) positions).1)[i]?
            = some (kp.1, mark_external_close kp.2))
        ∧ (kp.2.openFlag = true →
          kp.2.tradingsymbol ∈ kite_open_symbols report →
          ((sync_positions_from_kite (some report) positions).1)[i]?
            = some kp)
        ∧ (kp.2.openFlag = false →
          ((sync_positions_from_kite (some report) positions).1)[i]?
            = some kp)))
    ∧ (∀ (report : List BrokerPos)
        (positions : List ((String × ℕ) × Position)) (i : ℕ)
        (kp : (String × ℕ) × Position),
        positions[i]? = some kp →
        ((kp.2.openFlag = true →
          kp.2.instrument_token ∉ kite_open_tokens report →
          ((live_sync_positions_from_kite (some report) positions).1)[i]?
            = some (kp.1, mark_closed_externally kp.2))
        ∧ (kp.2.openFlag = true →
          kp.2.instrument_token ∈ kite_open_tokens report →
          ((live_sync_positions_from_kite (some report) positions).1)[i]?
            = some kp)
        ∧ (kp.2.openFlag = false →
          ((live_sync_positions_from_kite (some report) positions).1)[i]?
            = some kp))) := by
  refine ⟨fun _ => rfl, fun _ => rfl, fun _ _ => ⟨rfl, rfl⟩, ?_, ?_⟩
  · intro report positions i kp hkp
    refine ⟨?_, ?_, ?_⟩
    · intro hopen hnot
      simp only [sync_positions_from_kite, List.getElem?_map, hkp,
        Option.map_some']
      rw [if_pos ⟨hopen, hnot⟩]
    · intro hopen hmem
      simp only [sync_positions_from_kite, List.getElem?_map, hkp,
        Option.map_some']
      rw [if_neg (fun hcon => hcon.2 hmem)]
    · intro hclosed
      simp only [sync_positions_from_kite, List.getElem?_map, hkp,
        Option.map_some']
      rw [if_neg (by simp [hclosed])]
  · intro report positions i kp hkp
    refine ⟨?_, ?_, ?_⟩
    · intro hopen hnot
      simp only [live_sync_positions_from_kite, List.getElem?_map, hkp,
        Option.map_some']
      rw [if_pos ⟨hopen, hnot⟩]
    · intro hopen hmem
      simp only [live_sync_positions_from_kite, List.getElem?_map, hkp,
        Option.map_some']
      rw [if_neg (fun hcon => hcon.2 hmem)]
    · intro hclosed
      simp only [live_sync_positions_from_kite, List.getElem?_map, hkp,
        Option.map_some']
      rw [if_neg (by simp [hclosed])]

/-- Open position whose symbol the broker no longer reports. -/
def posAC9 : Position :=
  { strategy := "S", tradingsymbol := "AAA", instrument_token := 77,
    openFlag := true }

/-- Open position the broker still reports with nonzero quantity. -/
def posBC9 : Position :=
  { strategy := "S", tradingsymbol := "BBB", instrument_token := 88,
    openFlag := true }

/-- Broker net report for the C9 witness. -/
def reportC9 : List BrokerPos := [⟨"BBB", 50, 88⟩]

/-- Local position book for the C9 witness. -/
def psC9 : List ((String × ℕ) × Position) :=
  [(("S", 77), posAC9), (("S", 88), posBC9)]

theorem position_reconciliation_C9_witness :
    sync_positions_from_kite none psC9 = (psC9, [])
    ∧ ((sync_positions_from_kite (some reportC9) psC9).1)[0]?
        = some (("S", 77), mark_external_close posAC9)
    ∧ ((sync_positions_from_kite (some reportC9) psC9).1)[1]?
        = some (("S", 88), posBC9) :=
  ⟨position_reconciliation_C9.1 psC9,
   (position_reconciliation_C9.2.2.2.1 reportC9 psC9 0
     (("S", 77), posAC9) rfl).1 rfl (by decide),
   ((position_reconciliation_C9.2.2.2.1 reportC9 psC9 1
     (("S", 88), posBC9) rfl).2.1 rfl (by decide))⟩

/-- A strategy signal dict (`signal.get(...)` fields). -/
structure Signal where
  strategy : Option String := none
  token : Option ℕ := none
  direction : Option Dir := none
  price : Option ℚ := none
  time : Option ℕ := none
deriving DecidableEq, Repr

/-- `enter_position` of `src/execution/paper.py` (lines 42-96): reject
signals missing any of strategy/direction/price/time; reject (leaving the
book untouched) when an open position already exists under the token;
otherwise record the new open paper position (no broker order reference).
A key present with value None is conflated with an absent key, and the
stored `entry_time` is the raw `signal["time"]` as in the source. -/
def enter_position (positions : ℕ → Option Position) (token : ℕ)
    (signal : Signal) (qty : ℚ) : (ℕ → Option Position) × Bool :=
  match signal.strategy, signal.direction, signal.price, signal.time with
  | some st, some d, some pr, some tm =>
    let already_open :=
      match positions token with
      | some p => p.openFlag
      | none => false
    if already_open then (positions, false)
    else
      (fun k => if k = token then
        some { strategy := st, direction := some d, entry_price := pr,
               entry_time := some tm, qty := qty, openFlag := true }
        else positions k, true)
  | _, _, _, _ => (positions, false)

/-- An option contract as returned by the resolver
(`src/execution/live.py` lines 66-72). -/
structure OptionContract where
  tradingsymbol : String
  instrument_token : ℕ
  strike : ℚ
  expiry : ℕ
  name : String
deriving DecidableEq, Repr

/-- Python dict assignment on an association list: replace the entry under
the key if present, else append. -/
def assoc_set (ps : List ((String × ℕ) × Position)) (key : String × ℕ)
    (v : Position) : List ((String × ℕ) × Position) :=
  if ps.any (fun kp => decide (kp.1 = key)) then
    ps.map (fun kp => if kp.1 = key then (key, v) else kp)
  else ps ++ [(key, v)]

/-- `LiveEngine.enter_position` of `src/execution/live.py` (lines 62-132):
first reconcile with the broker (`fetch` is the `kite.positions()`
outcome), then refuse when the position under
(strategy, option instrument token) is still open, then place the market
order (`order_result` is the `kite.place_order` outcome; `none` =
exception, rejected) and record the new live position carrying the broker
order id. `entry_price` stores `signal.get("price")` defaulting to 0 for
a missing price (the source keeps the raw optional value; no claim
exercises a missing price). -/
def live_enter_position (fetch : Option (List BrokerPos))
    (order_result : Option ℕ) (today : ℕ)
    (positions : List ((String × ℕ) × Position)) (signal : Signal)
    (qty : ℚ) (opt : OptionContract) :
    List ((String × ℕ) × Position) × Bool :=
  let ps := (live_sync_positions_from_kite fetch positions).1
  let key : String × ℕ := (signal.strategy.getD "", opt.instrument_token)
  let already_open :=
    match List.lookup key ps with
    | some p => p.openFlag
    | none => false
  if already_open then (ps, false)
  else match order_result with
    | none => (ps, false)
    | some oid =>
      (assoc_set ps key
        { strategy := signal.strategy.getD "", index := some opt.name,
          direction := signal.direction, tradingsymbol := opt.tradingsymbol,
          instrument_token := opt.instrument_token, strike := opt.strike,
          expiry := opt.expiry, qty := qty, openFlag := true,
          kite_order_id := some oid, entry_price := (signal.price.getD 0),
          entry_time := signal.time, entry_date := today,
          best_price := signal.price, closed_externally := false }, true)

/-- A live position open under key ("S", 77) before the call. -/
def posOpenC1 : Position :=
  { strategy := "S", index := some "NIFTY", direction := some Dir.LONG,
    tradingsymbol := "NIFTYX", instrument_token := 77, qty := 50,
    entry_price := 100, openFlag := true, kite_order_id := some 1 }

/-- Signal for strategy "S". -/
def sigC1 : Signal :=
  { strategy := some "S", token := some 1, direction := some Dir.LONG,
    price := some 100, time := some 600 }

/-- Resolved option contract with instrument token 77. -/
def optC1 : OptionContract := ⟨"NIFTYX", 77, 100, 5, "NIFTY"⟩

/-- C1 counterexample: a position under ("S", 77) is open when
`LiveEngine.enter_position` is called, yet with a broker report that no
longer lists token 77 the pre-entry reconciliation marks it closed and
the entry is accepted (returns True and opens a replacement) — the claim
says any call with an open position under the key returns False and
leaves the position set unchanged. -/
theorem no_duplicate_position_C1_counterexample :
    List.lookup ("S", 77) [(("S", 77), posOpenC1)] = some posOpenC1
    ∧ posOpenC1.openFlag = true
    ∧ (live_enter_position (some []) (some 5) 0 [(("S", 77), posOpenC1)]
        sigC1 50 optC1).2 = true :=
  ⟨rfl, rfl, rfl⟩

/-- C1 (amended): the paper engine rejects and leaves its book untouched
whenever an open position exists under the instrument token; the live
engine, after the mandatory broker reconciliation (which may itself mark
stale positions externally closed), rejects and makes no further change
whenever the position under (strategy, instrument token) is still open. -/
theorem no_duplicate_position_C1 :
    (∀ (positions : ℕ → Option Position) (token : ℕ) (signal : Signal)
        (qty : ℚ) (p : Position),
        positions token = some p → p.openFlag = true →
        enter_position positions token signal qty = (positions, false))
    ∧ (∀ (fetch : Option (List BrokerPos)) (order_result : Option ℕ)
        (today : ℕ) (positions : List ((String × ℕ) × Position))
        (signal : Signal) (qty : ℚ) (opt : OptionContract) (p : Position),
        List.lookup (signal.strategy.getD "", opt.instrument_token)
            (live_sync_positions_from_kite fetch positions).1 = some p →
        p.openFlag = true →
        live_enter_position fetch order_result today positions signal qty opt
          = ((live_sync_positions_from_kite fetch positions).1, false)) := by
  constructor
  · intro positions token signal qty p hp hopen
    rcases hs : signal.strategy with _ | st <;>
      rcases hd : signal.direction with _ | d <;>
      rcases hpr : signal.price with _ | pr <;>
      rcases htm : signal.time with _ | tm <;>
      simp only [enter_position, hs, hd, hpr, htm]
    rw [hp]
    simp only [hopen, if_true]
  · intro fetch order_result today positions signal qty opt p hp hopen
    simp only [live_enter_position, hp]
    simp only [hopen, if_true]

/-- Paper book with an open position under token 5. -/
def paperBookC1 : ℕ → Option Position :=
  fun k => if k = 5 then
    some { strategy := "S", direction := some Dir.LONG, entry_price := 100,
           qty := 50, openFlag := true }
    else none

/-- Broker report still listing token 77 with nonzero quantity. -/
def reportC1 : List BrokerPos := [⟨"NIFTYX", 50, 77⟩]

theorem no_duplicate_position_C1_witness :
    enter_position paperBookC1 5 sigC1 50 = (paperBookC1, false)
    ∧ live_enter_position (some reportC1) (some 9) 0
        [(("S", 77), posOpenC1)] sigC1 50 optC1
      = ((live_sync_positions_from_kite (some reportC1)
          [(("S", 77), posOpenC1)]).1, false) :=
  ⟨no_duplicate_position_C1.1 paperBookC1 5 sigC1 50
     { strategy := "S", direction := some Dir.LONG, entry_price := 100,
       qty := 50, openFlag := true } rfl rfl,
   no_duplicate_position_C1.2 (some reportC1) (some 9) 0
     [(("S", 77), posOpenC1)] sigC1 50 optC1 posOpenC1 (by decide) rfl⟩

/-- Execution directive dict of `src/engine/config_loader.py`
(mode / qty / enabled), as read by `route_signal`. -/
structure ExecDirective where
  mode : Option String := none
  qty : Option ℕ := none
  enabled : Bool := false
deriving DecidableEq, Repr

/-- Reject reasons logged by `route_signal` (`src/execution/router.py`). -/
inductive RejectReason
  | OFF
  | ALREADY_OPEN
  | LIVE_BLOCKED
  | LIVE_REJECTED
deriving DecidableEq, Repr

/-- The routing decision `route_signal` takes before any engine call: a
drop (with the logged reject reason, if any) never invokes an entry
engine and the function returns False; `toPaper` / `toLive` dispatch to
the corresponding engine with the configured quantity. -/
inductive RouteDecision
  | dropSilent
  | dropLogged (reason : RejectReason)
  | toPaper (token : ℕ) (qty : ℕ)
  | toLive (token : ℕ) (qty : ℕ)
deriving DecidableEq, Repr

/-- `route_signal` of `src/execution/router.py` (lines 16-70): resolve the
instrument class via token_meta; drop silently when strategy or class is
missing; look up the directive under the pair (strategy, index) — the
config dict of `src/engine/config_loader.py` is keyed by 2-tuples;
absent or disabled directives and mode OFF drop with reason OFF; PAPER
dispatches to the paper engine; LIVE requires the global kill switch,
else drops with the distinct reason LIVE_BLOCKED; unknown modes fall
through to a silent False. An empty strategy/index string (falsy in the
source) is conflated with a missing one. -/
def route_signal (token_meta : ℕ → Option String)
    (execution_config : String × String → Option ExecDirective)
    (live_trading_enabled : Bool) (signal : Signal) : RouteDecision :=
  match signal.strategy, signal.token.bind token_meta with
  | some strategy, some index =>
    match execution_config (strategy, index) with
    | none => .dropLogged .OFF
    | some cfg =>
      if cfg.enabled = false then .dropLogged .OFF
      else
        let qty := cfg.qty.getD 1
        match cfg.mode with
        | some "OFF" => .dropLogged .OFF
        | some "PAPER" => .toPaper (signal.token.getD 0) qty
        | some "LIVE" =>
          if live_trading_enabled = false then .dropLogged .LIVE_BLOCKED
          else .toLive (signal.token.getD 0) qty
        | _ => .dropSilent
  | _, _ => .dropSilent

/-- Modelled from the spec: the claim's reading of the routing lookup, in
which the execution directive is retrieved under the key
(signal.strategy, class-of(signal.instrument), signal.direction) — a
direction-inclusive key the repository's config
(`src/engine/config_loader.py`, keyed by (strategy_name, index) pairs)
cannot even express. Used only to compare the claim against
`route_signal`. -/
def route_signal_claim_key_C6 (token_meta : ℕ → Option String)
    (execution_config : String × String × Dir → Option ExecDirective)
    (live_trading_enabled : Bool) (signal : Signal) : RouteDecision :=
  match signal.strategy, signal.token.bind token_meta, signal.direction with
  | some strategy, some index, some d =>
    match execution_config (strategy, index, d) with
    | none => .dropLogged .OFF
    | some cfg =>
      if cfg.enabled = false then .dropLogged .OFF
      else
        let qty := cfg.qty.getD 1
        match cfg.mode with
        | some "OFF" => .dropLogged .OFF
        | some "PAPER" => .toPaper (signal.token.getD 0) qty
        | some "LIVE" =>
          if live_trading_enabled = false then .dropLogged .LIVE_BLOCKED
          else .toLive (signal.token.getD 0) qty
        | _ => .dropSilent
  | _, _, _ => .dropSilent

/-- Code-side config: one pair-keyed directive for ("S", "NIFTY"). -/
def cfg2C6 : String × String → Option ExecDirective :=
  fun k => if k = ("S", "NIFTY") then
    some { mode := some "PAPER", qty := some 5, enabled := true }
    else none

/-- Claim-side config: the operator enables only the LONG direction. -/
def cfg3C6 : String × String × Dir → Option ExecDirective :=
  fun k => if k = ("S", "NIFTY", Dir.LONG) then
    some { mode := some "PAPER", qty := some 5, enabled := true }
    else none

/-- token 101 is a NIFTY instrument. -/
def metaC6 : ℕ → Option String :=
  fun k => if k = 101 then some "NIFTY" else none

/-- A SHORT signal for strategy "S" on token 101. -/
def sigShortC6 : Signal :=
  { strategy := some "S", token := some 101, direction := some Dir.SHORT,
    price := some 100, time := some 600 }

/-- C6 counterexample: under the claim's direction-inclusive lookup a
SHORT signal with no (strategy, class, SHORT) directive must be dropped,
but the code routes it to the paper engine using the directionless
(strategy, class) directive — `route_signal` never consults
signal.direction. -/
theorem route_key_has_no_direction_C6_counterexample :
    route_signal metaC6 cfg2C6 true sigShortC6 = RouteDecision.toPaper 101 5
    ∧ route_signal_claim_key_C6 metaC6 cfg3C6 true sigShortC6
        = RouteDecision.dropLogged RejectReason.OFF
    ∧ cfg3C6 ("S", "NIFTY", Dir.SHORT) = none
    ∧ sigShortC6.direction = some Dir.SHORT :=
  ⟨rfl, rfl, rfl, rfl⟩

/-- C6 (amended): the directive lookup key is (strategy, instrument
class) with no direction component — the decision is invariant under the
signal's direction; an absent or disabled directive and mode OFF drop the
signal with reason OFF (returning False, no engine call); mode LIVE with
the kill switch off drops it with the distinct reason LIVE_BLOCKED
instead of dispatching to the live engine. -/
theorem route_signal_dropping_C6 :
    (∀ (meta : ℕ → Option String)
        (cfgOf : String × String → Option ExecDirective) (lv : Bool)
        (signal : Signal) (s idx : String),
        signal.strategy = some s → signal.token.bind meta = some idx →
        cfgOf (s, idx) = none →
        route_signal meta cfgOf lv signal
          = RouteDecision.dropLogged RejectReason.OFF)
    ∧ (∀ (meta : ℕ → Option String)
        (cfgOf : String × String → Option ExecDirective) (lv : Bool)
        (signal : Signal) (s idx : String) (cfg : ExecDirective),
        signal.strategy = some s → signal.token.bind meta = some idx →
        cfgOf (s, idx) = some cfg → cfg.enabled = false →
        route_signal meta cfgOf lv signal
          = RouteDecision.dropLogged RejectReason.OFF)
    ∧ (∀ (meta : ℕ → Option String)
        (cfgOf : String × String → Option ExecDirective) (lv : Bool)
        (signal : Signal) (s idx : String) (cfg : ExecDirective),
        signal.strategy = some s → signal.token.bind meta = some idx →
        cfgOf (s, idx) = some cfg → cfg.enabled = true →
        cfg.mode = some "OFF" →
        route_signal meta cfgOf lv signal
          = RouteDecision.dropLogged RejectReason.OFF)
    ∧ (∀ (meta : ℕ → Option String)
        (cfgOf : String × String → Option ExecDirective)
        (signal : Signal) (s idx : String) (cfg : ExecDirective),
        signal.strategy = some s → signal.token.bind meta = some idx →
        cfgOf (s, idx) = some cfg → cfg.enabled = true →
        cfg.mode = some "LIVE" →
        route_signal meta cfgOf false signal
          = RouteDecision.dropLogged RejectReason.LIVE_BLOCKED
        ∧ RejectReason.LIVE_BLOCKED ≠ RejectReason.OFF)
    ∧ (∀ (meta : ℕ → Option String)
        (cfgOf : String × String → Option ExecDirective) (lv : Bool)
        (signal : Signal) (d : Option Dir),
        route_signal meta cfgOf lv {signal with direction := d}
          = route_signal meta cfgOf lv signal) := by
  refine ⟨?_, ?_, ?_, ?_, ?_⟩
  · intro meta cfgOf lv signal s idx hs hidx hcfg
    simp [route_signal, hs, hidx, hcfg]
  · intro meta cfgOf lv signal s idx cfg hs hidx hcfg hen
    simp [route_signal, hs, hidx, hcfg, hen]
  · intro meta cfgOf lv signal s idx cfg hs hidx hcfg hen hmode
    simp [route_signal, hs, hidx, hcfg, hen, hmode]
  · intro meta cfgOf signal s idx cfg hs hidx hcfg hen hmode
    refine ⟨?_, by simp⟩
    simp [route_signal, hs, hidx, hcfg, hen, hmode]
  · intro meta cfgOf lv signal d
    rfl

/-- A live-mode directive for ("S", "NIFTY"). -/
def cfgLiveC6 : String × String → Option ExecDirective :=
  fun k => if k = ("S", "NIFTY") then
    some { mode := some "LIVE", qty := some 5, enabled := true }
    else none

theorem route_signal_dropping_C6_witness :
    route_signal metaC6 (fun _ => none) true sigShortC6
      = RouteDecision.dropLogged RejectReason.OFF
    ∧ (route_signal metaC6 cfgLiveC6 false sigShortC6
        = RouteDecision.dropLogged RejectReason.LIVE_BLOCKED
      ∧ RejectReason.LIVE_BLOCKED ≠ RejectReason.OFF) :=
  ⟨route_signal_dropping_C6.1 metaC6 (fun _ => none) true sigShortC6
     "S" "NIFTY" rfl rfl rfl,
   route_signal_dropping_C6.2.2.2.1 metaC6 cfgLiveC6 sigShortC6
     "S" "NIFTY" { mode := some "LIVE", qty := some 5, enabled := true }
     rfl rfl rfl rfl rfl⟩
